import Mathlib

/-!
# Verification of the ek-transcript speaker-merging pipeline

This file gives a shallow embedding, in Lean 4, of the pure algorithmic core of
the `ek-transcript` audio-to-transcript pipeline, and proves (or refutes)
properties of it stated in the project specification.

The embedded code is translated from:

* `src/lambdas/merge_speakers/lambda_function.py` — `resolve_overlaps`,
  `cluster_speakers` and the post-load part of `lambda_handler`;
* `src/lambdas/aggregate_results/lambda_function.py` — the placeholder
  synthesis and sorting part of `lambda_handler`;
* the chunked diarizer (`extract_speaker_embeddings` and the chunk handler),
  which is exercised by `src/lambdas/diarize/tests/test_handler.py` but whose
  implementation is not present under `src/`; those definitions are modelled
  from the specification and are marked `Modelled from the spec`.

Modelling conventions:

* Python floats (times, similarity values, embeddings) become `ℚ`;
* Python lists become `List`, dicts become association lists in insertion
  order (all uses in the source have distinct keys, which the theorems make
  explicit where it matters);
* `list.sort` / `sorted` (Timsort, a stable sort) becomes
  `List.insertionSort`, which is likewise stable;
* the S3 blob store appears only through its effects: handlers return the
  blobs they would persist, and blob loads that may fail are inputs of type
  `Option _`;
* the scikit-learn clustering call (`AgglomerativeClustering.fit_predict`
  composed with `cosine_similarity`, lines 95–107 of the merge lambda) is an
  external library call and is abstracted as an explicit function parameter
  `fitPredict` from the list of embeddings to the list of integer cluster
  labels, exactly at the call boundary in the source.
-/

/-! ## Data model -/

/-- A candidate global segment before overlap reconciliation, as built in
`lambda_handler` of `merge_speakers` (lines 250–256): global times plus the
effective window of the chunk it came from.  `end` is a Lean keyword, so the
field `global_end` of the source keeps its name and `end` fields elsewhere are
called `stop`. -/
structure RawSegment where
  global_start : ℚ
  global_end : ℚ
  speaker : String
  effective_start : ℚ
  effective_end : ℚ
  deriving DecidableEq

/-- A resolved output segment `{start, end, speaker}` of `resolve_overlaps`
(the source dict built at lines 156–160). -/
structure Segment where
  start : ℚ
  stop : ℚ
  speaker : String
  deriving DecidableEq

/-- A chunk-local diarization segment (`segments` entries of a
ChunkDiarization blob). -/
structure LocalSegment where
  local_start : ℚ
  local_end : ℚ
  local_speaker : String
  deriving DecidableEq

/-- A per-speaker profile inside a ChunkDiarization blob.  `merge_speakers`
reads `embedding` and `total_duration`; the chunked diarizer also records
`segment_count`. -/
structure SpeakerProfile where
  embedding : List ℚ
  total_duration : ℚ
  segment_count : ℕ
  deriving DecidableEq

/-- A loaded ChunkDiarization blob as consumed by `merge_speakers`
(`chunk_results` entries after `load_chunk_results`).  The `speakers` dict is
an association list in insertion order. -/
structure ChunkResult where
  chunk_index : ℕ
  offset : ℚ
  effective_start : ℚ
  effective_end : ℚ
  segments : List LocalSegment
  speakers : List (String × SpeakerProfile)
  deriving DecidableEq

/-! ## `resolve_overlaps` (merge_speakers lambda, lines 129–175) -/

/-- The clipping step of `resolve_overlaps` (lines 145–160): clip a candidate
to its chunk's effective window and keep it only if the clipped interval is
non-empty. -/
def clipSegment (seg : RawSegment) : Option Segment :=
  let actual_start := max seg.global_start seg.effective_start
  let actual_end := min seg.global_end seg.effective_end
  if actual_start < actual_end then
    some { start := actual_start, stop := actual_end, speaker := seg.speaker }
  else
    none

/-- The sort key of `resolved.sort(key=lambda x: x["start"])` (line 163):
comparison by `start` only. -/
def startLE (a b : Segment) : Prop := a.start ≤ b.start

instance : DecidableRel startLE := fun a b => inferInstanceAs (Decidable (a.start ≤ b.start))

instance : IsTotal Segment startLE := ⟨fun a b => le_total a.start b.start⟩

instance : IsTrans Segment startLE := ⟨fun _ _ _ h h' => le_trans h h'⟩

/-- The sort `resolved.sort(key=lambda x: x["start"])` — Python's sort is stable, and
so is `List.insertionSort`. -/
def sortByStart (l : List Segment) : List Segment := l.insertionSort startLE

/-- The coalescing sweep of `resolve_overlaps` (lines 166–173), with the
already-emitted output kept in reverse order in the accumulator (the source
mutates `merged[-1]`, the head of the accumulator here).  A candidate with the
same speaker as the tail and a gap below 0.5 s overwrites the tail's end with
its own end; otherwise it is appended. -/
def mergeLoop : List Segment → List Segment → List Segment
  | acc, [] => acc.reverse
  | [], s :: rest => mergeLoop [s] rest
  | t :: ts, s :: rest =>
    if t.speaker = s.speaker ∧ s.start - t.stop < 1/2 then
      mergeLoop ({ t with stop := s.stop } :: ts) rest
    else
      mergeLoop (s :: t :: ts) rest

/-- The coalescing sweep applied to an already sorted candidate list. -/
def mergeSegs (l : List Segment) : List Segment := mergeLoop [] l

/-- Function `resolve_overlaps` (lines 129–175): clip to effective windows, sort by
start, coalesce near-adjacent same-speaker runs. -/
def resolve_overlaps (all_segments : List RawSegment) : List Segment :=
  mergeSegs (sortByStart (all_segments.filterMap clipSegment))

/-! ## `cluster_speakers` (merge_speakers lambda, lines 57–126) -/

/-- The embedding identity string `f"chunk_{chunk_idx}_{local_speaker}"`
(line 80). -/
def mkEmbId (chunk_index : ℕ) (local_speaker : String) : String :=
  "chunk_" ++ toString chunk_index ++ "_" ++ local_speaker

/-- The embedding collection loop (lines 71–81): one `(id, embedding)` entry
per speaker profile of each chunk, in input order.  The source also collects
`embedding_weights`, but never uses them afterwards, so they are not
modelled. -/
def speakerEntries (chunk_results : List ChunkResult) : List (String × List ℚ) :=
  chunk_results.flatMap fun r =>
    r.speakers.map fun p => (mkEmbId r.chunk_index p.1, p.2.embedding)

/-- The label string `f"SPEAKER_{chr(65 + i)}"` (line 112). -/
def speakerName (i : ℕ) : String :=
  "SPEAKER_" ++ String.singleton (Char.ofNat (65 + i))

/-- The list `sorted(set(labels))` (line 110): the distinct labels in ascending
order. -/
def sortedUniqueLabels (labels : List ℕ) : List ℕ :=
  labels.dedup.insertionSort (· ≤ ·)

/-- Function `cluster_speakers` (lines 57–126).  The composition of
`cosine_similarity`, the distance conversion and
`AgglomerativeClustering.fit_predict` (lines 95–107) is external library code
and enters as the parameter `fitPredict`; everything else is translated from
the source: the empty and singleton short-circuits (lines 83–88), the
conversion of cluster labels to `SPEAKER_A, SPEAKER_B, …` by ascending label
(lines 110–114) and the id-to-speaker mapping (lines 117–120). -/
def cluster_speakers (fitPredict : List (List ℚ) → List ℕ)
    (chunk_results : List ChunkResult) : List (String × String) × ℕ :=
  let entries := speakerEntries chunk_results
  match entries with
  | [] => ([], 0)
  | [e] => ([(e.1, "SPEAKER_A")], 1)
  | e1 :: e2 :: rest =>
    let es := e1 :: e2 :: rest
    let embedding_ids := es.map Prod.fst
    let labels := fitPredict (es.map Prod.snd)
    let unique_labels := sortedUniqueLabels labels
    let speaker_mapping :=
      embedding_ids.zip (labels.map fun l => speakerName (unique_labels.indexOf l))
    (speaker_mapping, unique_labels.length)

/-! ## `lambda_handler` of merge_speakers (lines 178–288)

Only the part after `load_chunk_results` is modelled: the handler receives the
already loaded chunk blobs.  The S3 `put_object` calls are returned as a list
of `(key, body)` pairs; environment-derived values (`bucket`,
`interview_id` pass-through, progress updates) are orthogonal to the claims
and omitted. -/

/-- The Step Functions response of the merge handler (metadata only,
lines 222–230 and 279–287). -/
structure MergeResult where
  audio_key : String
  segments_key : Option String
  global_speaker_count : ℕ
  deriving DecidableEq

/-- The base key `audio_key.rsplit(".", 1)[0] if "." in audio_key else audio_key`
(line 267). -/
def baseKey (audio_key : String) : String :=
  if audio_key.contains '.' then
    String.intercalate "." (audio_key.splitOn ".").dropLast
  else audio_key

/-- The lookup `speaker_mapping.get(mapping_key, f"UNKNOWN_{local_speaker}")`
(line 248). -/
def lookupSpeaker (mapping : List (String × String)) (key fallback : String) : String :=
  match mapping.lookup key with
  | some v => v
  | none => fallback

/-- The global candidate construction (lines 237–256): every segment of every
chunk is shifted by the chunk offset, labelled through the clustering mapping,
and tagged with its chunk's effective window. -/
def buildAllSegments (mapping : List (String × String))
    (chunk_results : List ChunkResult) : List RawSegment :=
  chunk_results.flatMap fun r =>
    r.segments.map fun seg =>
      { global_start := seg.local_start + r.offset
        global_end := seg.local_end + r.offset
        speaker := lookupSpeaker mapping (mkEmbId r.chunk_index seg.local_speaker)
            ("UNKNOWN_" ++ seg.local_speaker)
        effective_start := r.effective_start
        effective_end := r.effective_end }

/-- The merge handler after blob loading (lines 217–288): if every chunk has
no segments, return metadata with `segments_key = None` and count 0 without
persisting anything; otherwise cluster, build candidates, resolve overlaps and
persist the final segment list. -/
def merge_speakers_handler (fitPredict : List (List ℚ) → List ℕ)
    (audio_key : String) (chunk_results : List ChunkResult) :
    MergeResult × List (String × List Segment) :=
  let non_empty_chunks := chunk_results.filter fun r => ¬ r.segments.isEmpty
  if non_empty_chunks.isEmpty then
    ({ audio_key := audio_key, segments_key := none, global_speaker_count := 0 }, [])
  else
    let clustered := cluster_speakers fitPredict non_empty_chunks
    let final_segments := resolve_overlaps (buildAllSegments clustered.1 chunk_results)
    let segments_key := baseKey audio_key ++ "_segments.json"
    ({ audio_key := audio_key, segments_key := some segments_key,
       global_speaker_count := clustered.2 },
     [(segments_key, final_segments)])

/-! ## `lambda_handler` of aggregate_results (lines 32–125) -/

/-- A SegmentFile descriptor `{key, speaker, start, end}`. -/
structure SegmentFile where
  key : String
  speaker : String
  start : ℚ
  stop : ℚ
  deriving DecidableEq

/-- A TranscribeResult `{speaker, start, end, text}`. -/
structure TranscribeResult where
  speaker : String
  start : ℚ
  stop : ℚ
  text : String
  deriving DecidableEq

/-- The placeholder text of the aggregate handler (line 91).  The literal in
the source is Japanese (it means "read error"). -/
def readErrorText : String := "[読み込みエラー]"

/-- The placeholder entry synthesized from a SegmentFile when its
TranscribeResult blob cannot be loaded (lines 87–92). -/
def placeholderResult (f : SegmentFile) : TranscribeResult :=
  { speaker := f.speaker, start := f.start, stop := f.stop, text := readErrorText }

/-- One iteration of the loading loop (lines 69–92): a successful blob load
appends the loaded result, a failed one appends the placeholder.  The load
outcome is the `Option` input. -/
def loadOrPlaceholder : SegmentFile × Option TranscribeResult → TranscribeResult
  | (_, some r) => r
  | (f, none) => placeholderResult f

/-- The list `full_results` (lines 68–92): the loaded-or-synthesized entries in
SegmentFile order. -/
def full_results (files : List (SegmentFile × Option TranscribeResult)) :
    List TranscribeResult :=
  files.map loadOrPlaceholder

/-- The sort key of `sorted(full_results, key=lambda x: x["start"])`
(line 97): comparison by `start` only. -/
def tLE (a b : TranscribeResult) : Prop := a.start ≤ b.start

instance : DecidableRel tLE := fun a b => inferInstanceAs (Decidable (a.start ≤ b.start))

instance : IsTotal TranscribeResult tLE := ⟨fun a b => le_total a.start b.start⟩

instance : IsTrans TranscribeResult tLE := ⟨fun _ _ _ h h' => le_trans h h'⟩

/-- The list `sorted_results` (line 97): the persisted final transcript body. -/
def sorted_results (files : List (SegmentFile × Option TranscribeResult)) :
    List TranscribeResult :=
  (full_results files).insertionSort tLE

/-! ## Chunked diarizer (spec-modelled)

`src/lambdas/diarize/tests/test_handler.py` exercises
`extract_speaker_embeddings`, `get_embedding_model` and a chunk-input handler
that persists `{chunk_index, offset, effective_start, effective_end, segments,
speakers, speaker_count}`, but the chunk-aware `lambda_function.py` is not
present under `src/` (the file there is the legacy whole-file handler, which
computes no embeddings).  The definitions below are therefore modelled from
the specification (§4.2 and the SpeakerProfile row of the data model). -/

/-- A ChunkDescriptor as passed to the diarizer. -/
structure ChunkDescriptor where
  chunk_index : ℕ
  offset : ℚ
  effective_start : ℚ
  effective_end : ℚ
  deriving DecidableEq

/-- Length of a chunk-local segment in seconds. -/
def durationOf (s : LocalSegment) : ℚ := s.local_end - s.local_start

/-- Whether a segment is long enough (≥ 0.5 s) to contribute to a speaker
profile. -/
def longEnough (s : LocalSegment) : Bool := decide (1/2 ≤ durationOf s)

/-- Pointwise scalar multiple of an embedding vector. -/
def vecSmul (c : ℚ) (v : List ℚ) : List ℚ := v.map fun x => c * x

/-- Pointwise sum of two embedding vectors. -/
def vecAdd (a b : List ℚ) : List ℚ := List.zipWith (· + ·) a b

/-- Sum of a list of embedding vectors (empty input gives the empty
vector). -/
def vecSum : List (List ℚ) → List ℚ
  | [] => []
  | v :: vs => vs.foldl vecAdd v

/-- Modelled from the spec: the duration-weighted sum
`Σ duration(s) · crop(s)` over a list of segments, where `crop` is the
embedding model's clip operation on a sub-interval. -/
def weightedEmbeddingSum (crop : ℚ → ℚ → List ℚ) (segs : List LocalSegment) : List ℚ :=
  vecSum (segs.map fun s => vecSmul (durationOf s) (crop s.local_start s.local_end))

/-- Modelled from the spec: the qualifying segments of one local speaker —
those of length ≥ 0.5 s carrying that speaker label. -/
def ownSegments (segs : List LocalSegment) (sp : String) : List LocalSegment :=
  (segs.filter longEnough).filter fun s => s.local_speaker == sp

/-- Modelled from the spec: the SpeakerProfile of one local speaker — the
duration-weighted mean embedding over that speaker's qualifying segments,
their total duration, and their count. -/
def profileFor (crop : ℚ → ℚ → List ℚ) (segs : List LocalSegment)
    (sp : String) : SpeakerProfile :=
  let own := ownSegments segs sp
  let total := (own.map durationOf).sum
  { embedding := vecSmul (1/total) (weightedEmbeddingSum crop own)
    total_duration := total
    segment_count := own.length }

/-- Modelled from the spec: `extract_speaker_embeddings` (absent from
`src/lambdas/diarize/lambda_function.py`; exercised by its tests) — one
profile per distinct local speaker that has at least one segment of ≥ 0.5 s,
in order of first appearance.  Segments shorter than 0.5 s contribute to no
profile. -/
def extract_speaker_embeddings (crop : ℚ → ℚ → List ℚ)
    (segs : List LocalSegment) : List (String × SpeakerProfile) :=
  (((segs.filter longEnough).map (·.local_speaker)).dedup).map fun sp =>
    (sp, profileFor crop segs sp)

/-- Modelled from the spec: the persisted ChunkDiarization blob of the chunk
diarizer — the chunk's coordinates, the diarization model's segments
unchanged (short ones included), and the extracted speaker profiles. -/
def diarize_chunk_result (crop : ℚ → ℚ → List ℚ) (chunk : ChunkDescriptor)
    (diarized : List LocalSegment) : ChunkResult :=
  { chunk_index := chunk.chunk_index
    offset := chunk.offset
    effective_start := chunk.effective_start
    effective_end := chunk.effective_end
    segments := diarized
    speakers := extract_speaker_embeddings crop diarized }

/-! ## Helper lemmas about `resolve_overlaps` -/

/-- A candidate lying strictly inside its effective window is clipped to
itself. -/
lemma clipSegment_inside (a : RawSegment) (h1 : a.effective_start ≤ a.global_start)
    (h2 : a.global_start < a.global_end) (h3 : a.global_end ≤ a.effective_end) :
    clipSegment a = some { start := a.global_start, stop := a.global_end, speaker := a.speaker } := by
  simp only [clipSegment]
  rw [max_eq_left h1, min_eq_left h3, if_pos h2]

/-- Sorting a two-element list already ordered by start leaves it in place. -/
lemma sortByStart_pair (x y : Segment) (h : x.start ≤ y.start) :
    sortByStart [x, y] = [x, y] := by
  simp [sortByStart, List.insertionSort, List.orderedInsert, startLE, h]

/-- The sweep on a same-speaker near-adjacent pair coalesces, overwriting the
tail's end with the second end. -/
lemma mergeSegs_pair_coalesce (x y : Segment) (hs : x.speaker = y.speaker)
    (hg : y.start - x.stop < 1/2) :
    mergeSegs [x, y] = [{ x with stop := y.stop }] := by
  have hg' : y.start - x.stop < 2⁻¹ := by rw [← one_div]; exact hg
  simp [mergeSegs, mergeLoop, hs, hg']

/-- The sweep appends when the coalescing condition fails. -/
lemma mergeSegs_pair_keep (x y : Segment)
    (h : ¬ (x.speaker = y.speaker ∧ y.start - x.stop < 1/2)) :
    mergeSegs [x, y] = [x, y] := by
  simp only [mergeSegs, mergeLoop, if_neg h]
  rfl

/-- Running `resolve_overlaps` on two candidates inside their windows, ordered by
start. -/
lemma resolve_overlaps_pair (a b : RawSegment)
    (ha1 : a.effective_start ≤ a.global_start) (ha2 : a.global_start < a.global_end)
    (ha3 : a.global_end ≤ a.effective_end)
    (hb1 : b.effective_start ≤ b.global_start) (hb2 : b.global_start < b.global_end)
    (hb3 : b.global_end ≤ b.effective_end)
    (hord : a.global_start ≤ b.global_start) :
    resolve_overlaps [a, b] =
      mergeSegs [{ start := a.global_start, stop := a.global_end, speaker := a.speaker },
                 { start := b.global_start, stop := b.global_end, speaker := b.speaker }] := by
  have hca := clipSegment_inside a ha1 ha2 ha3
  have hcb := clipSegment_inside b hb1 hb2 hb3
  unfold resolve_overlaps
  rw [show [a, b].filterMap clipSegment =
      [{ start := a.global_start, stop := a.global_end, speaker := a.speaker },
       { start := b.global_start, stop := b.global_end, speaker := b.speaker }] by
    simp [List.filterMap, hca, hcb]]
  rw [sortByStart_pair _ _ hord]

/-! ## Claim C5 -/

/-- C5: `resolve_overlaps` clips every candidate to its chunk's effective
window as `actual_start = max(start, effective_start)`,
`actual_end = min(end, effective_end)`, and drops it exactly when
`actual_start ≥ actual_end`; in particular a `SPEAKER_A` candidate
`[470, 490)` with `effective_end = 480` yields the clipped output
`[470, 480)`. -/
theorem resolve_overlaps_clips_to_effective_window :
    (∀ seg : RawSegment,
      resolve_overlaps [seg] =
        if max seg.global_start seg.effective_start < min seg.global_end seg.effective_end then
          [{ start := max seg.global_start seg.effective_start,
             stop := min seg.global_end seg.effective_end,
             speaker := seg.speaker }]
        else [])
    ∧ resolve_overlaps
        [{ global_start := 470, global_end := 490, speaker := "SPEAKER_A",
           effective_start := 0, effective_end := 480 }]
      = [{ start := 470, stop := 480, speaker := "SPEAKER_A" }] := by
  constructor
  · intro seg
    by_cases h : max seg.global_start seg.effective_start < min seg.global_end seg.effective_end
    · rw [if_pos h]
      simp [resolve_overlaps, clipSegment, h, List.filterMap, sortByStart,
        List.insertionSort, List.orderedInsert, mergeSegs, mergeLoop]
    · rw [if_neg h]
      simp [resolve_overlaps, clipSegment, h, List.filterMap, sortByStart,
        List.insertionSort, mergeSegs, mergeLoop]
  · with_unfolding_all decide

/-! ## Claim C1 -/

/-- C1 (amended): in the left-to-right sweep of overlap reconciliation, when
the next candidate has the same speaker as the tail and
`next.start − tail.end < 0.5 s`, `resolve_overlaps` extends the tail by
overwriting `tail.end` with `next.end` (the source, line 171, assigns
`merged[-1]["end"] = seg["end"]`, not the maximum of the two ends) instead of
appending, and it never coalesces two candidates with different speakers; the
candidates `SPEAKER_A [10.0, 15.0)` and `SPEAKER_A [15.2, 20.0)` inside
effective windows yield the single output `SPEAKER_A [10.0, 20.0)`. -/
theorem resolve_overlaps_coalesces_same_speaker :
    (∀ a b : RawSegment,
      a.effective_start ≤ a.global_start → a.global_start < a.global_end →
      a.global_end ≤ a.effective_end →
      b.effective_start ≤ b.global_start → b.global_start < b.global_end →
      b.global_end ≤ b.effective_end →
      a.global_start ≤ b.global_start →
      a.speaker = b.speaker → b.global_start - a.global_end < 1/2 →
      resolve_overlaps [a, b] =
        [{ start := a.global_start, stop := b.global_end, speaker := a.speaker }])
    ∧ (∀ a b : RawSegment,
      a.effective_start ≤ a.global_start → a.global_start < a.global_end →
      a.global_end ≤ a.effective_end →
      b.effective_start ≤ b.global_start → b.global_start < b.global_end →
      b.global_end ≤ b.effective_end →
      a.global_start ≤ b.global_start →
      a.speaker ≠ b.speaker →
      resolve_overlaps [a, b] =
        [{ start := a.global_start, stop := a.global_end, speaker := a.speaker },
         { start := b.global_start, stop := b.global_end, speaker := b.speaker }])
    ∧ resolve_overlaps
        [{ global_start := 10, global_end := 15, speaker := "SPEAKER_A",
           effective_start := 0, effective_end := 480 },
         { global_start := 15.2, global_end := 20, speaker := "SPEAKER_A",
           effective_start := 0, effective_end := 480 }]
      = [{ start := 10, stop := 20, speaker := "SPEAKER_A" }] := by
  refine ⟨?_, ?_, ?_⟩
  · intro a b ha1 ha2 ha3 hb1 hb2 hb3 hord hs hg
    rw [resolve_overlaps_pair a b ha1 ha2 ha3 hb1 hb2 hb3 hord,
      mergeSegs_pair_coalesce _ _ hs hg]
  · intro a b ha1 ha2 ha3 hb1 hb2 hb3 hord hs
    rw [resolve_overlaps_pair a b ha1 ha2 ha3 hb1 hb2 hb3 hord,
      mergeSegs_pair_keep]
    intro hc
    exact hs hc.1
  · with_unfolding_all decide

/-- Witness for C1 at concrete inputs: the coalescing branch on
`SPEAKER_A [10, 15)` and `SPEAKER_A [15.2, 20)`, and the non-coalescing
branch when the second speaker is `SPEAKER_B`. -/
theorem resolve_overlaps_coalesces_same_speaker_witness :
    resolve_overlaps
        [{ global_start := 10, global_end := 15, speaker := "SPEAKER_A",
           effective_start := 0, effective_end := 480 },
         { global_start := 15.2, global_end := 20, speaker := "SPEAKER_A",
           effective_start := 0, effective_end := 480 }]
      = [{ start := 10, stop := 20, speaker := "SPEAKER_A" }]
    ∧ resolve_overlaps
        [{ global_start := 10, global_end := 15, speaker := "SPEAKER_A",
           effective_start := 0, effective_end := 480 },
         { global_start := 15.2, global_end := 20, speaker := "SPEAKER_B",
           effective_start := 0, effective_end := 480 }]
      = [{ start := 10, stop := 15, speaker := "SPEAKER_A" },
         { start := 15.2, stop := 20, speaker := "SPEAKER_B" }] :=
  ⟨resolve_overlaps_coalesces_same_speaker.1 _ _
      (by with_unfolding_all decide) (by with_unfolding_all decide)
      (by with_unfolding_all decide) (by with_unfolding_all decide)
      (by with_unfolding_all decide) (by with_unfolding_all decide)
      (by with_unfolding_all decide) rfl (by with_unfolding_all decide),
   resolve_overlaps_coalesces_same_speaker.2.1 _ _
      (by with_unfolding_all decide) (by with_unfolding_all decide)
      (by with_unfolding_all decide) (by with_unfolding_all decide)
      (by with_unfolding_all decide) (by with_unfolding_all decide)
      (by with_unfolding_all decide) (by with_unfolding_all decide)⟩

/-- Counterexample to C1 as stated: for the same-speaker candidates
`[0, 10)` and `[1, 2)` (both inside their effective windows, sorted, gap
`1 − 10 < 0.5`), the sweep overwrites the tail's end with the next end `2`,
not with `max(tail.end, next.end) = 10` as the claim states. -/
theorem resolve_overlaps_coalesce_is_not_max :
    resolve_overlaps
        [{ global_start := 0, global_end := 10, speaker := "SPEAKER_A",
           effective_start := 0, effective_end := 100 },
         { global_start := 1, global_end := 2, speaker := "SPEAKER_A",
           effective_start := 0, effective_end := 100 }]
      = [{ start := 0, stop := 2, speaker := "SPEAKER_A" }]
    ∧ (2 : ℚ) ≠ max 10 2 := by
  constructor
  · with_unfolding_all decide
  · with_unfolding_all decide

/-! ## Claim C3 -/

/-- Modelled from the spec (for comparison with the source): the sort order
the specification claims for the surviving candidates — `actual_start`
ascending, tie-break by `actual_end` ascending, then by `speaker`
lexicographic. -/
def specSortLE (a b : Segment) : Prop :=
  a.start < b.start ∨ (a.start = b.start ∧
    (a.stop < b.stop ∨ (a.stop = b.stop ∧ a.speaker ≤ b.speaker)))

instance : DecidableRel specSortLE := fun _ _ =>
  inferInstanceAs (Decidable (_ ∨ _))

/-- Modelled from the spec: the surviving clipped candidates ordered by the
claimed three-component key. -/
def spec_sorted_candidates (l : List RawSegment) : List Segment :=
  (l.filterMap clipSegment).insertionSort specSortLE

/-- C3 (amended): before the coalescing sweep, `resolve_overlaps` sorts the
surviving clipped candidates by `actual_start` ascending only — a stable
sort, so ties keep their input order; there is no tie-break by `actual_end`
or by `speaker` (the source, line 163, sorts with
`key=lambda x: x["start"]`). -/
theorem resolve_overlaps_sorts_by_start_only :
    ∀ l : List RawSegment,
      List.Sorted startLE (sortByStart (l.filterMap clipSegment))
      ∧ (sortByStart (l.filterMap clipSegment)).Perm (l.filterMap clipSegment) :=
  fun _ => ⟨List.sorted_insertionSort startLE _, List.perm_insertionSort startLE _⟩

/-- Counterexample to C3 as stated: two surviving candidates share
`actual_start = 5`; the claimed tie-break by `actual_end` then `speaker`
would order `SPEAKER_A [5, 6)` before `SPEAKER_B [5, 7)`, but the sweep input
of `resolve_overlaps` keeps the stable start-only order
`SPEAKER_B [5, 7)`, `SPEAKER_A [5, 6)`. -/
theorem resolve_overlaps_sort_has_no_tiebreak :
    sortByStart
        ([{ global_start := 5, global_end := 7, speaker := "SPEAKER_B",
            effective_start := 0, effective_end := 480 },
          { global_start := 5, global_end := 6, speaker := "SPEAKER_A",
            effective_start := 0, effective_end := 480 }].filterMap clipSegment)
      = [{ start := 5, stop := 7, speaker := "SPEAKER_B" },
         { start := 5, stop := 6, speaker := "SPEAKER_A" }]
    ∧ spec_sorted_candidates
        [{ global_start := 5, global_end := 7, speaker := "SPEAKER_B",
           effective_start := 0, effective_end := 480 },
         { global_start := 5, global_end := 6, speaker := "SPEAKER_A",
           effective_start := 0, effective_end := 480 }]
      = [{ start := 5, stop := 6, speaker := "SPEAKER_A" },
         { start := 5, stop := 7, speaker := "SPEAKER_B" }]
    ∧ ([{ start := 5, stop := 7, speaker := "SPEAKER_B" },
        { start := 5, stop := 6, speaker := "SPEAKER_A" }] : List Segment)
      ≠ [{ start := 5, stop := 6, speaker := "SPEAKER_A" },
         { start := 5, stop := 7, speaker := "SPEAKER_B" }] := by
  refine ⟨?_, ?_, ?_⟩ <;> with_unfolding_all decide

/-! ## Claim C9 -/

/-- Modelled from the spec (for comparison with the source): the sort order
the specification claims for the Aggregator — `start` ascending, then `end`,
then `speaker`. -/
def specAggLE (a b : TranscribeResult) : Prop :=
  a.start < b.start ∨ (a.start = b.start ∧
    (a.stop < b.stop ∨ (a.stop = b.stop ∧ a.speaker ≤ b.speaker)))

instance : DecidableRel specAggLE := fun _ _ =>
  inferInstanceAs (Decidable (_ ∨ _))

/-- Modelled from the spec: the loaded results ordered by the claimed
three-component key. -/
def spec_sorted_results (files : List (SegmentFile × Option TranscribeResult)) :
    List TranscribeResult :=
  (full_results files).insertionSort specAggLE

/-- C9 (amended): the Aggregator sorts the loaded TranscribeResults by
`start` ascending only before persisting — a stable sort, with no tie-break
by `end` or `speaker` (the source, line 97, sorts with
`key=lambda x: x["start"]`) — so the persisted final transcript is
non-decreasing by `start` and is a permutation of the loaded entries. -/
theorem aggregator_sorts_by_start_only :
    ∀ files : List (SegmentFile × Option TranscribeResult),
      List.Sorted tLE (sorted_results files)
      ∧ (sorted_results files).Perm (full_results files) :=
  fun _ => ⟨List.sorted_insertionSort tLE _, List.perm_insertionSort tLE _⟩

/-- Counterexample to C9 as stated: two loaded results share `start = 0`
with ends `5` and `3`; the claimed `(start, end, speaker)` order would put
the end-3 entry first, but the persisted transcript keeps the stable
load order with the end-5 entry first. -/
theorem aggregator_sort_has_no_tiebreak :
    sorted_results
        [({ key := "segments/test_0000_SPEAKER_00.wav", speaker := "SPEAKER_00",
            start := 0, stop := 5 },
          some { speaker := "SPEAKER_00", start := 0, stop := 5, text := "first" }),
         ({ key := "segments/test_0001_SPEAKER_01.wav", speaker := "SPEAKER_01",
            start := 0, stop := 3 },
          some { speaker := "SPEAKER_01", start := 0, stop := 3, text := "second" })]
      = [{ speaker := "SPEAKER_00", start := 0, stop := 5, text := "first" },
         { speaker := "SPEAKER_01", start := 0, stop := 3, text := "second" }]
    ∧ spec_sorted_results
        [({ key := "segments/test_0000_SPEAKER_00.wav", speaker := "SPEAKER_00",
            start := 0, stop := 5 },
          some { speaker := "SPEAKER_00", start := 0, stop := 5, text := "first" }),
         ({ key := "segments/test_0001_SPEAKER_01.wav", speaker := "SPEAKER_01",
            start := 0, stop := 3 },
          some { speaker := "SPEAKER_01", start := 0, stop := 3, text := "second" })]
      = [{ speaker := "SPEAKER_01", start := 0, stop := 3, text := "second" },
         { speaker := "SPEAKER_00", start := 0, stop := 5, text := "first" }]
    ∧ ([{ speaker := "SPEAKER_00", start := 0, stop := 5, text := "first" },
        { speaker := "SPEAKER_01", start := 0, stop := 3, text := "second" }] : List TranscribeResult)
      ≠ [{ speaker := "SPEAKER_01", start := 0, stop := 3, text := "second" },
         { speaker := "SPEAKER_00", start := 0, stop := 5, text := "first" }] := by
  refine ⟨?_, ?_, ?_⟩ <;> with_unfolding_all decide

/-! ## Claim C4 -/

/-- C4 (amended): when every loaded ChunkDiarization has no segments, the
merge_speakers handler terminates successfully with
`global_speaker_count = 0` and `segments_key = None`, and persists nothing —
in particular it does not write an empty segments blob (source lines
217–230 return before the `put_object` call at line 270). -/
theorem merge_handler_all_empty :
    ∀ (fitPredict : List (List ℚ) → List ℕ) (audio_key : String)
      (crs : List ChunkResult),
      (∀ r ∈ crs, r.segments = []) →
      merge_speakers_handler fitPredict audio_key crs =
        ({ audio_key := audio_key, segments_key := none,
           global_speaker_count := 0 }, []) := by
  intro fit ak crs h
  have hf : (crs.filter fun r => ¬ r.segments.isEmpty) = [] := by
    rw [List.filter_eq_nil_iff]
    intro r hr
    simp [h r hr]
  simp [merge_speakers_handler, hf]
  exact h

/-- Witness for C4 at a concrete input: one loaded chunk with
`segments = []`. -/
theorem merge_handler_all_empty_witness :
    (∀ r ∈ [({ chunk_index := 0, offset := 0, effective_start := 0,
               effective_end := 480, segments := [], speakers := [] } : ChunkResult)],
      r.segments = [])
    ∧ merge_speakers_handler (fun l => List.range l.length) "processed/test.wav"
        [{ chunk_index := 0, offset := 0, effective_start := 0,
           effective_end := 480, segments := [], speakers := [] }] =
      ({ audio_key := "processed/test.wav", segments_key := none,
         global_speaker_count := 0 }, []) :=
  ⟨by with_unfolding_all decide,
   merge_handler_all_empty (fun l => List.range l.length) "processed/test.wav"
     [{ chunk_index := 0, offset := 0, effective_start := 0,
        effective_end := 480, segments := [], speakers := [] }]
     (by with_unfolding_all decide)⟩

/-- Counterexample to C4 as stated: on an all-empty input the handler
persists no blob at all — there is no persisted segments list equal to the
empty array, and the returned `segments_key` is `None`. -/
theorem merge_handler_all_empty_persists_no_blob :
    (merge_speakers_handler (fun l => List.range l.length) "processed/test.wav"
        [{ chunk_index := 0, offset := 0, effective_start := 0,
           effective_end := 480, segments := [], speakers := [] }]).2 = []
    ∧ (merge_speakers_handler (fun l => List.range l.length) "processed/test.wav"
        [{ chunk_index := 0, offset := 0, effective_start := 0,
           effective_end := 480, segments := [], speakers := [] }]).1.segments_key
      = none
    ∧ ¬ ∃ p ∈ (merge_speakers_handler (fun l => List.range l.length)
          "processed/test.wav"
          [{ chunk_index := 0, offset := 0, effective_start := 0,
             effective_end := 480, segments := [], speakers := [] }]).2,
        p.2 = ([] : List Segment) := by
  refine ⟨?_, ?_, ?_⟩ <;> with_unfolding_all decide

/-! ## Claim C8 -/

/-- A ten-SegmentFile Aggregator input in which exactly one TranscribeResult
blob (the fourth) failed to load. -/
def exampleAggregateInput : List (SegmentFile × Option TranscribeResult) :=
  [({ key := "segments/t_0000_SPEAKER_00.wav", speaker := "SPEAKER_00", start := 0, stop := 1 },
    some { speaker := "SPEAKER_00", start := 0, stop := 1, text := "t0" }),
   ({ key := "segments/t_0001_SPEAKER_01.wav", speaker := "SPEAKER_01", start := 1, stop := 2 },
    some { speaker := "SPEAKER_01", start := 1, stop := 2, text := "t1" }),
   ({ key := "segments/t_0002_SPEAKER_00.wav", speaker := "SPEAKER_00", start := 2, stop := 3 },
    some { speaker := "SPEAKER_00", start := 2, stop := 3, text := "t2" }),
   ({ key := "segments/t_0003_SPEAKER_01.wav", speaker := "SPEAKER_01", start := 3, stop := 4 },
    none),
   ({ key := "segments/t_0004_SPEAKER_00.wav", speaker := "SPEAKER_00", start := 4, stop := 5 },
    some { speaker := "SPEAKER_00", start := 4, stop := 5, text := "t4" }),
   ({ key := "segments/t_0005_SPEAKER_01.wav", speaker := "SPEAKER_01", start := 5, stop := 6 },
    some { speaker := "SPEAKER_01", start := 5, stop := 6, text := "t5" }),
   ({ key := "segments/t_0006_SPEAKER_00.wav", speaker := "SPEAKER_00", start := 6, stop := 7 },
    some { speaker := "SPEAKER_00", start := 6, stop := 7, text := "t6" }),
   ({ key := "segments/t_0007_SPEAKER_01.wav", speaker := "SPEAKER_01", start := 7, stop := 8 },
    some { speaker := "SPEAKER_01", start := 7, stop := 8, text := "t7" }),
   ({ key := "segments/t_0008_SPEAKER_00.wav", speaker := "SPEAKER_00", start := 8, stop := 9 },
    some { speaker := "SPEAKER_00", start := 8, stop := 9, text := "t8" }),
   ({ key := "segments/t_0009_SPEAKER_01.wav", speaker := "SPEAKER_01", start := 9, stop := 10 },
    some { speaker := "SPEAKER_01", start := 9, stop := 10, text := "t9" })]

/-- C8 (amended): for every SegmentFile whose TranscribeResult blob fails to
load, the Aggregator synthesizes the placeholder
`{speaker, start, end, text: "[読み込みエラー]"}` from that SegmentFile's
fields (the source literal, line 91, is the Japanese for "read error", not
the English string `"[read error]"`) and continues; a run with exactly one
unreadable blob, none of whose successfully loaded texts equals the
placeholder, yields as many time-ordered transcript entries as SegmentFiles,
exactly one of them carrying the placeholder text. -/
theorem aggregator_synthesizes_placeholder :
    ∀ files : List (SegmentFile × Option TranscribeResult),
      files.countP (fun p => p.2.isNone) = 1 →
      (∀ p ∈ files, p.2 = none ∨ (loadOrPlaceholder p).text ≠ readErrorText) →
      (sorted_results files).length = files.length
      ∧ (sorted_results files).countP (fun r => r.text == readErrorText) = 1
      ∧ List.Sorted tLE (sorted_results files)
      ∧ ∀ p ∈ files, p.2 = none → placeholderResult p.1 ∈ sorted_results files := by
  intro files h1 h2
  have hperm : (sorted_results files).Perm (full_results files) :=
    List.perm_insertionSort tLE _
  refine ⟨?_, ?_, List.sorted_insertionSort tLE _, ?_⟩
  · rw [hperm.length_eq]
    simp [full_results]
  · rw [List.Perm.countP_eq _ hperm]
    unfold full_results
    rw [List.countP_map, ← h1]
    apply List.countP_congr
    rintro ⟨f, r⟩ hp
    cases r with
    | none =>
      simp [Function.comp, loadOrPlaceholder, placeholderResult]
    | some r =>
      rcases h2 ⟨f, some r⟩ hp with hnone | hne
      · simp at hnone
      · simp only [loadOrPlaceholder] at hne
        simp [Function.comp, loadOrPlaceholder, beq_iff_eq, hne]
  · rintro ⟨f, r⟩ hp hnone
    simp only at hnone
    subst hnone
    have hm : loadOrPlaceholder (f, none) ∈ full_results files :=
      List.mem_map_of_mem loadOrPlaceholder hp
    rw [hperm.mem_iff]
    exact hm

/-- Witness for C8 at the concrete ten-file input with one unreadable
blob. -/
theorem aggregator_synthesizes_placeholder_witness :
    exampleAggregateInput.countP (fun p => p.2.isNone) = 1
    ∧ ((sorted_results exampleAggregateInput).length = exampleAggregateInput.length
       ∧ (sorted_results exampleAggregateInput).countP
           (fun r => r.text == readErrorText) = 1
       ∧ List.Sorted tLE (sorted_results exampleAggregateInput)
       ∧ ∀ p ∈ exampleAggregateInput, p.2 = none →
           placeholderResult p.1 ∈ sorted_results exampleAggregateInput) :=
  ⟨by with_unfolding_all decide,
   aggregator_synthesizes_placeholder exampleAggregateInput
     (by with_unfolding_all decide) (by with_unfolding_all decide)⟩

/-- Counterexample to C8 as stated: on the ten-file input with one
unreadable blob, no transcript entry has text `"[read error]"` — the
placeholder literal in the source is the Japanese `"[読み込みエラー]"`. -/
theorem aggregator_placeholder_is_not_english :
    (sorted_results exampleAggregateInput).length = 10
    ∧ (sorted_results exampleAggregateInput).countP
        (fun r => r.text == "[read error]") = 0
    ∧ (sorted_results exampleAggregateInput).countP
        (fun r => r.text == readErrorText) = 1 := by
  refine ⟨?_, ?_, ?_⟩ <;> with_unfolding_all decide

/-! ## Claim C2 -/

/-- Two segments occupy disjoint time ranges (in either order). -/
def segDisjoint (a b : Segment) : Prop := a.stop ≤ b.start ∨ b.stop ≤ a.start

instance : DecidableRel segDisjoint := fun _ _ =>
  inferInstanceAs (Decidable (_ ∨ _))

/-- The coalescing sweep preserves adjacent non-overlap: if the accumulated
output (in reverse) followed by the remaining input forms a non-overlapping
chain, so does the sweep's result.  Coalescing replaces the junction pair
`tail, next` by a single segment with `tail`'s start and `next`'s end, which
keeps both boundaries of the chain intact. -/
lemma mergeLoop_chain :
    ∀ (rest acc : List Segment),
      List.Chain' (fun a b => a.stop ≤ b.start) (acc.reverse ++ rest) →
      List.Chain' (fun a b => a.stop ≤ b.start) (mergeLoop acc rest) := by
  intro rest
  induction rest with
  | nil =>
    intro acc h
    simp only [mergeLoop]
    simpa using h
  | cons s rest ih =>
    intro acc h
    match acc with
    | [] =>
      simp only [mergeLoop]
      exact ih [s] (by simpa using h)
    | t :: ts =>
      by_cases hc : t.speaker = s.speaker ∧ s.start - t.stop < 1/2
      · simp only [mergeLoop, if_pos hc]
        apply ih
        rw [List.reverse_cons] at h ⊢
        rw [List.chain'_append] at h
        obtain ⟨h1, h2, h3⟩ := h
        rw [List.chain'_append] at h1
        obtain ⟨h1a, _, h1c⟩ := h1
        rw [List.chain'_cons'] at h2
        obtain ⟨h2a, h2b⟩ := h2
        rw [List.chain'_append]
        refine ⟨?_, h2b, ?_⟩
        · rw [List.chain'_append]
          refine ⟨h1a, List.chain'_singleton _, ?_⟩
          intro x hx y hy
          simp only [List.head?_cons, Option.mem_def, Option.some.injEq] at hy
          subst hy
          exact h1c x hx t (by simp)
        · intro x hx y hy
          rw [List.getLast?_concat] at hx
          simp only [Option.mem_def, Option.some.injEq] at hx
          subst hx
          exact h2a y hy
      · simp only [mergeLoop, if_neg hc]
        apply ih
        rw [List.reverse_cons, List.reverse_cons, List.append_assoc]
        rw [List.reverse_cons] at h
        simpa using h

/-- C2 (amended): for every input list of candidate segments whose surviving
clipped candidates are pairwise disjoint in time, the output of
`resolve_overlaps` contains no two overlapping segments: every adjacent pair
satisfies `merged[i].end ≤ merged[i+1].start`.  (Without the disjointness
premise, two clipped candidates with different speakers and overlapping
ranges pass through the sweep unmerged and remain overlapping in the
output.) -/
theorem resolve_overlaps_no_overlap_of_disjoint :
    ∀ l : List RawSegment,
      (l.filterMap clipSegment).Pairwise segDisjoint →
      List.Chain' (fun a b => a.stop ≤ b.start) (resolve_overlaps l) := by
  intro l hdisj
  have hsorted : List.Sorted startLE (sortByStart (l.filterMap clipSegment)) :=
    List.sorted_insertionSort startLE _
  have hperm : (sortByStart (l.filterMap clipSegment)).Perm (l.filterMap clipSegment) :=
    List.perm_insertionSort startLE _
  have hdisj' : (sortByStart (l.filterMap clipSegment)).Pairwise segDisjoint :=
    (List.Perm.pairwise_iff (fun hxy => hxy.symm) hperm).2 hdisj
  have hlt : ∀ x ∈ sortByStart (l.filterMap clipSegment), x.start < x.stop := by
    intro x hx
    obtain ⟨raw, _, hclip⟩ := List.mem_filterMap.1 (hperm.mem_iff.1 hx)
    simp only [clipSegment] at hclip
    by_cases hi : max raw.global_start raw.effective_start
        < min raw.global_end raw.effective_end
    · rw [if_pos hi] at hclip
      obtain rfl := Option.some.inj hclip
      exact hi
    · rw [if_neg hi] at hclip
      exact absurd hclip (by simp)
  have hpair : (sortByStart (l.filterMap clipSegment)).Pairwise
      (fun a b => a.stop ≤ b.start) := by
    refine List.Pairwise.imp_of_mem ?_ (List.Pairwise.and hsorted hdisj')
    intro a b _ hb hab
    rcases hab with ⟨hle, hor | hor⟩
    · exact hor
    · exact absurd (lt_of_lt_of_le (hlt b hb) (le_trans hor hle)) (lt_irrefl _)
  unfold resolve_overlaps mergeSegs
  apply mergeLoop_chain
  simpa using hpair.chain'

/-- Witness for C2 at a concrete input: three pairwise disjoint clipped
candidates. -/
theorem resolve_overlaps_no_overlap_of_disjoint_witness :
    ([({ global_start := 0, global_end := 10, speaker := "SPEAKER_A",
         effective_start := 0, effective_end := 480 } : RawSegment),
      { global_start := 11, global_end := 20, speaker := "SPEAKER_B",
        effective_start := 0, effective_end := 480 },
      { global_start := 20, global_end := 30, speaker := "SPEAKER_A",
        effective_start := 0, effective_end := 480 }].filterMap clipSegment).Pairwise
        segDisjoint
    ∧ List.Chain' (fun a b => a.stop ≤ b.start)
        (resolve_overlaps
          [{ global_start := 0, global_end := 10, speaker := "SPEAKER_A",
             effective_start := 0, effective_end := 480 },
           { global_start := 11, global_end := 20, speaker := "SPEAKER_B",
             effective_start := 0, effective_end := 480 },
           { global_start := 20, global_end := 30, speaker := "SPEAKER_A",
             effective_start := 0, effective_end := 480 }]) :=
  ⟨by with_unfolding_all decide,
   resolve_overlaps_no_overlap_of_disjoint
     [{ global_start := 0, global_end := 10, speaker := "SPEAKER_A",
        effective_start := 0, effective_end := 480 },
      { global_start := 11, global_end := 20, speaker := "SPEAKER_B",
        effective_start := 0, effective_end := 480 },
      { global_start := 20, global_end := 30, speaker := "SPEAKER_A",
        effective_start := 0, effective_end := 480 }]
     (by with_unfolding_all decide)⟩

/-- Counterexample to C2 as stated: two overlapping clipped candidates with
different speakers survive the sweep unmerged, so the output's adjacent pair
overlaps (`10 ≰ 1`) and the speakers differ — neither disjunct of the
claimed invariant holds. -/
theorem resolve_overlaps_overlapping_speakers_remain :
    resolve_overlaps
        [{ global_start := 0, global_end := 10, speaker := "SPEAKER_A",
           effective_start := 0, effective_end := 100 },
         { global_start := 1, global_end := 2, speaker := "SPEAKER_B",
           effective_start := 0, effective_end := 100 }]
      = [{ start := 0, stop := 10, speaker := "SPEAKER_A" },
         { start := 1, stop := 2, speaker := "SPEAKER_B" }]
    ∧ ¬ ((10 : ℚ) ≤ 1)
    ∧ ("SPEAKER_A" : String) ≠ "SPEAKER_B" := by
  refine ⟨?_, ?_, ?_⟩ <;> with_unfolding_all decide

/-! ## Claim C10 -/

/-- Function `Char.ofNat` is injective below the surrogate range (where `chr` of the
source is also injective). -/
lemma charOfNat_inj_below (i j : ℕ) (hi : i < 55000) (hj : j < 55000)
    (h : Char.ofNat (65 + i) = Char.ofNat (65 + j)) : i = j := by
  have vi : (65 + i).isValidChar := Or.inl (by omega)
  have vj : (65 + j).isValidChar := Or.inl (by omega)
  rw [Char.ofNat, dif_pos vi, Char.ofNat, dif_pos vj] at h
  have h2 := congrArg (fun c => c.val.toBitVec.toNat) h
  simp only [Char.ofNatAux, BitVec.toNat_ofNatLt] at h2
  omega

/-- Distinct cluster indices below the surrogate range give distinct
`SPEAKER_…` names. -/
lemma speakerName_inj (i j : ℕ) (hi : i < 55000) (hj : j < 55000)
    (h : speakerName i = speakerName j) : i = j := by
  have hd := congrArg String.data h
  simp only [speakerName, String.data_append, String.data_singleton] at hd
  have hc : Char.ofNat (65 + i) = Char.ofNat (65 + j) :=
    List.cons.inj (List.append_cancel_left hd) |>.1
  exact charOfNat_inj_below i j hi hj hc

/-- Mapping a list through a function injective on its members preserves the
number of distinct elements. -/
lemma dedup_length_map_of_injOn {α β : Type} [DecidableEq α] [DecidableEq β]
    (f : α → β) :
    ∀ l : List α, (∀ x ∈ l, ∀ y ∈ l, f x = f y → x = y) →
      ((l.map f).dedup).length = l.dedup.length := by
  intro l
  induction l with
  | nil => simp
  | cons a l ih =>
    intro h
    have htail : ∀ x ∈ l, ∀ y ∈ l, f x = f y → x = y := fun x hx y hy =>
      h x (List.mem_cons_of_mem _ hx) y (List.mem_cons_of_mem _ hy)
    by_cases hm : a ∈ l
    · have hfm : f a ∈ l.map f := List.mem_map_of_mem f hm
      rw [List.map_cons, List.dedup_cons_of_mem hfm, List.dedup_cons_of_mem hm]
      exact ih htail
    · have hfm : f a ∉ l.map f := by
        intro hc
        obtain ⟨x, hx, hfx⟩ := List.mem_map.1 hc
        exact hm
          ((h x (List.mem_cons_of_mem _ hx) a (List.mem_cons_self _ _) hfx) ▸ hx)
      rw [List.map_cons, List.dedup_cons_of_not_mem hfm,
        List.dedup_cons_of_not_mem hm]
      simp [ih htail]

/-- C10: `cluster_speakers` returns a pair whose second component equals the
number of distinct global speaker labels occurring as values of the mapping
(for every clustering outcome of the expected length, assuming the
`(chunk_index, local_speaker)` identities are pairwise distinct — otherwise
the source's Python dict would overwrite entries — and that there are at
most 55000 embeddings, below which `chr` and its Lean model agree); in
particular it returns `({}, 0)` when no embeddings are present and the
singleton mapping to `SPEAKER_A` with count 1 when exactly one embedding is
present. -/
theorem cluster_speakers_count_is_distinct_values :
    (∀ (fitPredict : List (List ℚ) → List ℕ) (crs : List ChunkResult),
      ((speakerEntries crs).map Prod.fst).Nodup →
      (fitPredict ((speakerEntries crs).map Prod.snd)).length
        = (speakerEntries crs).length →
      (speakerEntries crs).length ≤ 55000 →
      (((cluster_speakers fitPredict crs).1.map Prod.snd).dedup).length
        = (cluster_speakers fitPredict crs).2)
    ∧ (∀ (fitPredict : List (List ℚ) → List ℕ) (crs : List ChunkResult),
        speakerEntries crs = [] → cluster_speakers fitPredict crs = ([], 0))
    ∧ (∀ (fitPredict : List (List ℚ) → List ℕ) (crs : List ChunkResult) e,
        speakerEntries crs = [e] →
        cluster_speakers fitPredict crs = ([(e.1, "SPEAKER_A")], 1)) := by
  refine ⟨?_, ?_, ?_⟩
  · intro fit crs _ hlen hbound
    rcases hent : speakerEntries crs with _ | ⟨e1, _ | ⟨e2, tl⟩⟩
    · simp [cluster_speakers, hent]
    · simp [cluster_speakers, hent]
    · rw [hent] at hlen hbound
      simp only [cluster_speakers, hent]
      set E := e1 :: e2 :: tl with hE
      set labels := fit (E.map Prod.snd) with hlabels
      set uniq := sortedUniqueLabels labels with huniq
      set f := fun l => speakerName (uniq.indexOf l) with hf
      have hlen' : (labels.map f).length ≤ (E.map Prod.fst).length := by
        simp [hlen]
      rw [List.map_snd_zip _ _ hlen']
      have huniqperm : uniq.Perm labels.dedup :=
        List.perm_insertionSort _ _
      have hul : uniq.length ≤ 55000 := by
        calc uniq.length = labels.dedup.length := huniqperm.length_eq
          _ ≤ labels.length := (List.dedup_sublist labels).length_le
          _ = E.length := by simp [hlen]
          _ ≤ 55000 := hbound
      have hinj : ∀ x ∈ labels, ∀ y ∈ labels, f x = f y → x = y := by
        intro x hx y hy hxy
        have hxu : x ∈ uniq := huniqperm.mem_iff.2 (List.mem_dedup.2 hx)
        have hyu : y ∈ uniq := huniqperm.mem_iff.2 (List.mem_dedup.2 hy)
        have hxi : uniq.indexOf x < uniq.length := List.indexOf_lt_length.2 hxu
        have hyi : uniq.indexOf y < uniq.length := List.indexOf_lt_length.2 hyu
        have := speakerName_inj _ _ (lt_of_lt_of_le hxi hul)
          (lt_of_lt_of_le hyi hul) hxy
        exact (List.indexOf_inj hxu hyu).1 this
      rw [dedup_length_map_of_injOn f labels hinj]
      exact huniqperm.length_eq.symm
  · intro fit crs hent
    simp [cluster_speakers, hent]
  · intro fit crs e hent
    simp [cluster_speakers, hent]

/-- Witness for C10 at a concrete input: two chunks with one speaker profile
each (distinct identities), a clustering outcome separating them, and the
empty and singleton special cases. -/
theorem cluster_speakers_count_is_distinct_values_witness :
    ((((cluster_speakers (fun l => List.range l.length)
        [{ chunk_index := 0, offset := 0, effective_start := 0, effective_end := 480,
           segments := [], speakers := [("SPEAKER_00",
             { embedding := [1, 0], total_duration := 30, segment_count := 1 })] },
         { chunk_index := 1, offset := 450, effective_start := 450,
           effective_end := 930, segments := [], speakers := [("SPEAKER_00",
             { embedding := [0, 1], total_duration := 25, segment_count := 1 })] }]).1.map
        Prod.snd).dedup).length
      = (cluster_speakers (fun l => List.range l.length)
          [{ chunk_index := 0, offset := 0, effective_start := 0, effective_end := 480,
             segments := [], speakers := [("SPEAKER_00",
               { embedding := [1, 0], total_duration := 30, segment_count := 1 })] },
           { chunk_index := 1, offset := 450, effective_start := 450,
             effective_end := 930, segments := [], speakers := [("SPEAKER_00",
               { embedding := [0, 1], total_duration := 25, segment_count := 1 })] }]).2)
    ∧ cluster_speakers (fun l => List.range l.length) [] = ([], 0) :=
  ⟨cluster_speakers_count_is_distinct_values.1 (fun l => List.range l.length)
      [{ chunk_index := 0, offset := 0, effective_start := 0, effective_end := 480,
         segments := [], speakers := [("SPEAKER_00",
           { embedding := [1, 0], total_duration := 30, segment_count := 1 })] },
       { chunk_index := 1, offset := 450, effective_start := 450,
         effective_end := 930, segments := [], speakers := [("SPEAKER_00",
           { embedding := [0, 1], total_duration := 25, segment_count := 1 })] }]
      (by with_unfolding_all decide) (by with_unfolding_all decide)
      (by with_unfolding_all decide),
   cluster_speakers_count_is_distinct_values.2.1 (fun l => List.range l.length) []
      (by with_unfolding_all decide)⟩

/-! ## Claim C7 -/

/-- Nested scalar multiples of a vector combine multiplicatively. -/
lemma vecSmul_vecSmul (a b : ℚ) (v : List ℚ) :
    vecSmul a (vecSmul b v) = vecSmul (a * b) v := by
  simp [vecSmul, List.map_map, Function.comp, mul_assoc]

/-- Scaling a vector by 1 changes nothing. -/
lemma vecSmul_one (v : List ℚ) : vecSmul 1 v = v := by
  simp [vecSmul]

/-- Looking a key up in an association list built by pairing each key with a
computed value. -/
lemma lookup_map_mk {β : Type} (g : String → β) :
    ∀ (l : List String) (sp : String),
      (l.map fun s => (s, g s)).lookup sp
        = if sp ∈ l then some (g sp) else none := by
  intro l
  induction l with
  | nil => simp [List.lookup]
  | cons a l ih =>
    intro sp
    simp only [List.map_cons, List.lookup]
    by_cases h : sp = a
    · subst h
      simp
    · have hb : (sp == a) = false := beq_eq_false_iff_ne.2 h
      rw [hb]
      simp [h, ih sp]

/-- A speaker appears among the profile keys exactly when it owns a
qualifying (≥ 0.5 s) segment. -/
lemma mem_profile_keys (segs : List LocalSegment) (sp : String) :
    sp ∈ ((segs.filter longEnough).map (·.local_speaker)).dedup
      ↔ ∃ s ∈ segs, longEnough s ∧ s.local_speaker = sp := by
  simp only [List.mem_dedup, List.mem_map, List.mem_filter]
  constructor
  · rintro ⟨s, ⟨hs, hl⟩, hsp⟩
    exact ⟨s, hs, hl, hsp⟩
  · rintro ⟨s, hs, hl, hsp⟩
    exact ⟨s, ⟨hs, hl⟩, hsp⟩

/-- The total duration of a nonempty set of qualifying segments is
positive. -/
lemma ownSegments_total_pos (segs : List LocalSegment) (sp : String)
    (h : ownSegments segs sp ≠ []) :
    0 < ((ownSegments segs sp).map durationOf).sum := by
  apply List.sum_pos
  · intro x hx
    obtain ⟨s, hs, rfl⟩ := List.mem_map.1 hx
    have hl : longEnough s = true :=
      (List.mem_filter.1 (List.mem_filter.1 hs).1).2
    have h2 : (1 : ℚ)/2 ≤ durationOf s := of_decide_eq_true hl
    linarith
  · simpa using h

/-- C7 (spec-modelled): the chunk diarizer's persisted result keeps the full
segment list (short segments included) and contains, for each distinct local
speaker owning at least one segment of length ≥ 0.5 s, a SpeakerProfile
whose embedding is the duration-weighted mean of per-segment embeddings over
exactly that speaker's qualifying segments: scaled by the (positive) total
duration it equals `Σ duration · crop(segment)`, and every contributing
segment has length ≥ 0.5 s and that speaker — so segments shorter than 0.5 s
are excluded from every profile but kept in `segments`. -/
theorem diarizer_profiles_weighted_mean :
    ∀ (crop : ℚ → ℚ → List ℚ) (chunk : ChunkDescriptor) (segs : List LocalSegment),
      (diarize_chunk_result crop chunk segs).segments = segs
      ∧ (∀ sp : String,
          (diarize_chunk_result crop chunk segs).speakers.lookup sp
              = some (profileFor crop segs sp)
            ↔ ∃ s ∈ segs, longEnough s ∧ s.local_speaker = sp)
      ∧ (∀ (sp : String) (pr : SpeakerProfile),
          (diarize_chunk_result crop chunk segs).speakers.lookup sp = some pr →
          pr.total_duration = ((ownSegments segs sp).map durationOf).sum
          ∧ 0 < pr.total_duration
          ∧ vecSmul pr.total_duration pr.embedding
              = weightedEmbeddingSum crop (ownSegments segs sp)
          ∧ ∀ s ∈ ownSegments segs sp,
              (1 : ℚ)/2 ≤ durationOf s ∧ s.local_speaker = sp) := by
  intro crop chunk segs
  have hlk : ∀ sp, (diarize_chunk_result crop chunk segs).speakers.lookup sp
      = if sp ∈ ((segs.filter longEnough).map (·.local_speaker)).dedup then
          some (profileFor crop segs sp)
        else none :=
    fun sp => lookup_map_mk (profileFor crop segs) _ sp
  refine ⟨rfl, ?_, ?_⟩
  · intro sp
    rw [hlk sp, ← mem_profile_keys segs sp]
    by_cases hm : sp ∈ ((segs.filter longEnough).map (·.local_speaker)).dedup
    · simp [hm]
    · simp [hm]
  · intro sp pr hpr
    rw [hlk sp] at hpr
    by_cases hm : sp ∈ ((segs.filter longEnough).map (·.local_speaker)).dedup
    · rw [if_pos hm] at hpr
      obtain rfl := (Option.some.inj hpr).symm
      have hown : ownSegments segs sp ≠ [] := by
        obtain ⟨s, hs, hl, hsp⟩ := (mem_profile_keys segs sp).1 hm
        have : s ∈ ownSegments segs sp := by
          refine List.mem_filter.2 ⟨List.mem_filter.2 ⟨hs, hl⟩, ?_⟩
          exact beq_iff_eq.2 hsp
        exact List.ne_nil_of_mem this
      have hpos : 0 < ((ownSegments segs sp).map durationOf).sum :=
        ownSegments_total_pos segs sp hown
      refine ⟨rfl, hpos, ?_, ?_⟩
      · show vecSmul ((ownSegments segs sp).map durationOf).sum
          (vecSmul (1 / ((ownSegments segs sp).map durationOf).sum)
            (weightedEmbeddingSum crop (ownSegments segs sp)))
          = weightedEmbeddingSum crop (ownSegments segs sp)
        rw [vecSmul_vecSmul, mul_one_div_cancel (ne_of_gt hpos), vecSmul_one]
      · intro s hs
        have h1 : longEnough s = true :=
          (List.mem_filter.1 (List.mem_filter.1 hs).1).2
        have h2 : (s.local_speaker == sp) = true := (List.mem_filter.1 hs).2
        exact ⟨of_decide_eq_true h1, beq_iff_eq.1 h2⟩
    · rw [if_neg hm] at hpr
      exact absurd hpr (by simp)

/-- Concrete clip-embedding function for the C7 witness. -/
def cropW : ℚ → ℚ → List ℚ := fun a b => [a + b, 1]

/-- Concrete chunk descriptor for the C7 witness. -/
def chunkW : ChunkDescriptor :=
  { chunk_index := 0, offset := 0, effective_start := 0, effective_end := 480 }

/-- Concrete diarized segments for the C7 witness: two long `SPEAKER_00`
segments, one short (0.3 s) `SPEAKER_01` segment. -/
def segsW : List LocalSegment :=
  [{ local_start := 0, local_end := 5, local_speaker := "SPEAKER_00" },
   { local_start := 11/2, local_end := 29/5, local_speaker := "SPEAKER_01" },
   { local_start := 6, local_end := 10, local_speaker := "SPEAKER_00" }]

/-- Witness for C7 at the concrete input: the profile of `SPEAKER_00`
satisfies the weighted-mean characterization. -/
theorem diarizer_profiles_weighted_mean_witness :
    (diarize_chunk_result cropW chunkW segsW).speakers.lookup "SPEAKER_00"
      = some (profileFor cropW segsW "SPEAKER_00")
    ∧ ((profileFor cropW segsW "SPEAKER_00").total_duration
        = ((ownSegments segsW "SPEAKER_00").map durationOf).sum
      ∧ 0 < (profileFor cropW segsW "SPEAKER_00").total_duration
      ∧ vecSmul (profileFor cropW segsW "SPEAKER_00").total_duration
          (profileFor cropW segsW "SPEAKER_00").embedding
        = weightedEmbeddingSum cropW (ownSegments segsW "SPEAKER_00")
      ∧ ∀ s ∈ ownSegments segsW "SPEAKER_00",
          (1 : ℚ)/2 ≤ durationOf s ∧ s.local_speaker = "SPEAKER_00") :=
  ⟨by with_unfolding_all decide,
   (diarizer_profiles_weighted_mean cropW chunkW segsW).2.2 "SPEAKER_00"
     (profileFor cropW segsW "SPEAKER_00") (by with_unfolding_all decide)⟩
